import Mathlib

/-!
Shallow embedding of the alert evaluation pipeline
(`src/alerts/alertsEngine.ts`: `generateMessage`, `checkRules`) of the
WT-AC-2025 course-work IoT monitoring server.

Numbers flowing through the engine (reading values, rule thresholds) are
modelled as `Rat`; JavaScript `Number.prototype.toString` is modelled by
`numToString` for numbers whose denominator divides a power of ten (the
engine's data is decimal; exponent notation for extreme magnitudes is out
of scope).  JavaScript `String.prototype.replace` with a string pattern
replaces only the first occurrence of the pattern; `$`-escape sequences in
the replacement string are not modelled (no claim involves them).

The effectful collaborators of `checkRules` (redis cache, prisma store,
socket.io notifier) are modelled by an environment `Env` recording the
result of each collaborator call, and the observable behaviour of one
`checkRules` invocation is a `Trace` of the calls it made.  A rejected
promise at a collaborator call is an `Except.error` that propagates to the
nearest enclosing try/catch, exactly as in the source.
-/

/-- Error value thrown by a failing collaborator call (a rejected promise). -/
abbrev Err := String

/-- JavaScript first-occurrence string replacement on character lists:
`replaceFirstList pat rep s` replaces the first occurrence of `pat` in `s`
by `rep` and leaves the rest unchanged; if `pat` does not occur, `s` is
returned unchanged. -/
def replaceFirstList (pat rep : List Char) : List Char → List Char
  | [] => if pat.isPrefixOf [] then rep else []
  | c :: rest =>
    if pat.isPrefixOf (c :: rest) then rep ++ (c :: rest).drop pat.length
    else c :: replaceFirstList pat rep rest

/-- JavaScript `s.replace(pat, rep)` with a string pattern: replaces only
the FIRST occurrence of `pat`. -/
def replaceFirst (s pat rep : String) : String :=
  String.mk (replaceFirstList pat.data rep.data s.data)

/-- JavaScript default number-to-string conversion, for rationals whose
denominator divides a power of ten: integers print without a decimal
point, other values print with the shortest decimal fraction. -/
def numToString (q : Rat) : String :=
  if q.den = 1 then toString q.num
  else
    match (List.range 40).find? (fun k => 10 ^ (k + 1) % q.den == 0) with
    | some k =>
      let p : Nat := 10 ^ (k + 1)
      let scaled : Int := q.num * ((p / q.den : Nat) : Int)
      let n := scaled.natAbs
      let intPart := n / p
      let fracPart := n % p
      let fracStr := toString fracPart
      let pad := String.mk (List.replicate (k + 1 - fracStr.length) '0')
      (if q.num < 0 then "-" else "") ++ toString intPart ++ "." ++ pad ++ fracStr
    | none => toString q.num ++ "/" ++ toString q.den

/-- The function `generateMessage` from `alertsEngine.ts`:
`template.replace('{metricName}', metricName).replace('{value}',
value.toString()).replace('{threshold}', threshold.toString())`. -/
def generateMessage (template metricName : String) (value threshold : Rat) : String :=
  replaceFirst
    (replaceFirst
      (replaceFirst template "{metricName}" metricName)
      "{value}" (numToString value))
    "{threshold}" (numToString threshold)

/-- Prisma `AlertRule` row (fields used by the engine). -/
structure AlertRule where
  id : String
  metric_id : String
  condition : String
  threshold : Rat
  level : String
  message_template : String
deriving DecidableEq

/-- Prisma `Reading` row (fields used by the engine). -/
structure Reading where
  id : String
  metric_id : String
  value : Rat
deriving DecidableEq

/-- Prisma `Device` row; `owner_id` is `none` for an absent owner and the
JavaScript truthiness test on it also rejects the empty string. -/
structure Device where
  owner_id : Option String
deriving DecidableEq

/-- Prisma `Metric` row with its included `device` relation. -/
structure Metric where
  id : String
  name : String
  device : Device
deriving DecidableEq

/-- The `alertData` record passed to `prisma.alert.create` (also used as
the payload of the `new_alert` emit; the store-assigned alert id is not
modelled). -/
structure AlertData where
  metric_id : String
  reading_id : String
  level : String
  status : String
  threshold : Rat
  message : String
deriving DecidableEq

/-- JavaScript truthiness of `metric.device.owner_id`: an absent owner and
the empty string are both falsy. -/
def ownerTruthy : Option String → Bool
  | none => false
  | some s => !s.isEmpty

/-- The owner id string used to build the room key (only ever used when
`ownerTruthy` holds). -/
def ownerStr (o : Option String) : String := o.getD ""

/-- The constant `RULES_CACHE_TTL` from `alertsEngine.ts`. -/
def RULES_CACHE_TTL : Nat := 300

/-- The `switch (rule.condition)` of `checkRules`: `some b` when one of
the six operator cases assigns `conditionMet := b`; `none` for the
`default: continue` branch (unknown operator, rule skipped). -/
def evalCondition (cond : String) (value threshold : Rat) : Option Bool :=
  if cond = ">" then some (decide (value > threshold))
  else if cond = "<" then some (decide (value < threshold))
  else if cond = ">=" then some (decide (value ≥ threshold))
  else if cond = "<=" then some (decide (value ≤ threshold))
  else if cond = "==" then some (decide (value = threshold))
  else if cond = "!=" then some (decide (value ≠ threshold))
  else none

/-- The record passed to `prisma.alert.create` for a matched rule. -/
def mkAlertData (reading : Reading) (metric : Metric) (rule : AlertRule) : AlertData :=
  { metric_id := reading.metric_id
    reading_id := reading.id
    level := rule.level
    status := "new"
    threshold := rule.threshold
    message := generateMessage rule.message_template metric.name reading.value rule.threshold }

/-- Results of the collaborator calls one `checkRules` invocation makes:
the redis `get`/`set` on the rules cache key, the prisma
`alertRule.findMany` and `metric.findUnique` queries, and the per-call
outcomes of `prisma.alert.create` and `io.to(...).emit(...)` (indexed by
how many such calls happened before in this invocation).  `Except.error`
models a rejected promise / thrown exception at that call.  The redis
payload round-trips through JSON, so the cache read is modelled as
directly yielding the deserialized rule list (`none` = cache miss). -/
structure Env where
  cacheGet : Except Err (Option (List AlertRule))
  findRules : Except Err (List AlertRule)
  cacheSet : Except Err Unit
  findMetric : Except Err (Option Metric)
  createAlert : Nat → Except Err Unit
  emit : Nat → Except Err Unit

/-- Observable behaviour of one `checkRules` invocation: the cache keys
read, the metric ids passed to `alertRule.findMany`, the cache writes
(key, serialized rule list, TTL seconds), the alerts successfully
persisted by `prisma.alert.create`, the socket emits (room, event name,
payload), and the `console.error` log entries (reading id, error). -/
structure Trace where
  cacheReads : List String
  ruleQueries : List String
  cacheWrites : List (String × List AlertRule × Nat)
  alerts : List AlertData
  emits : List (String × String × AlertData)
  errorLog : List (String × Err)
deriving DecidableEq

/-- The empty trace. -/
def Trace.nil : Trace := ⟨[], [], [], [], [], []⟩

/-- Concatenation of traces (sequencing of two phases). -/
def Trace.app (t u : Trace) : Trace :=
  ⟨t.cacheReads ++ u.cacheReads, t.ruleQueries ++ u.ruleQueries,
   t.cacheWrites ++ u.cacheWrites, t.alerts ++ u.alerts,
   t.emits ++ u.emits, t.errorLog ++ u.errorLog⟩

/-- The `for (const rule of rules)` loop of `checkRules`.  `tr` is the
trace accumulated so far, `cIdx`/`eIdx` count the `alert.create`/`emit`
calls already made.  A thrown collaborator error aborts the loop and
propagates (to the single try/catch wrapping the whole body). -/
def runRules (env : Env) (reading : Reading) (io : Bool) (metric : Metric) :
    List AlertRule → Trace → Nat → Nat → Trace × Except Err Unit
  | [], tr, _, _ => (tr, .ok ())
  | rule :: rest, tr, cIdx, eIdx =>
    match evalCondition rule.condition reading.value rule.threshold with
    | none => runRules env reading io metric rest tr cIdx eIdx
    | some false => runRules env reading io metric rest tr cIdx eIdx
    | some true =>
      let alertData := mkAlertData reading metric rule
      match env.createAlert cIdx with
      | .error e => (tr, .error e)
      | .ok _ =>
        let tr1 := { tr with alerts := tr.alerts ++ [alertData] }
        if io && ownerTruthy metric.device.owner_id then
          match env.emit eIdx with
          | .error e => (tr1, .error e)
          | .ok _ =>
            runRules env reading io metric rest
              { tr1 with emits := tr1.emits ++
                  [("user:" ++ ownerStr metric.device.owner_id, "new_alert", alertData)] }
              (cIdx + 1) (eIdx + 1)
        else
          runRules env reading io metric rest tr1 (cIdx + 1) eIdx

/-- Lines 47-56 of `checkRules`: read the rules cache; on a hit use the
deserialized rules, on a miss query `alertRule.findMany` and write the
result back with TTL `RULES_CACHE_TTL`. -/
def fetchRules (env : Env) (metricId : String) : Trace × Except Err (List AlertRule) :=
  let cacheKey := "alert_rules:" ++ metricId
  let tr0 := { Trace.nil with cacheReads := [cacheKey] }
  match env.cacheGet with
  | .error e => (tr0, .error e)
  | .ok (some rs) => (tr0, .ok rs)
  | .ok none =>
    match env.findRules with
    | .error e => ({ tr0 with ruleQueries := [metricId] }, .error e)
    | .ok rs =>
      match env.cacheSet with
      | .error e => ({ tr0 with ruleQueries := [metricId] }, .error e)
      | .ok _ =>
        ({ tr0 with
            ruleQueries := [metricId]
            cacheWrites := [(cacheKey, rs, RULES_CACHE_TTL)] }, .ok rs)

/-- Lines 58-97 of `checkRules`: resolve the reading's metric (with its
device) and evaluate the given rules against the reading. -/
def evalReading (env : Env) (reading : Reading) (io : Bool)
    (rs : List AlertRule) : Trace × Except Err Unit :=
  match env.findMetric with
  | .error e => (Trace.nil, .error e)
  | .ok none => (Trace.nil, .ok ())
  | .ok (some metric) => runRules env reading io metric rs Trace.nil 0 0

/-- The body of the `try` block of `checkRules`. -/
def checkRulesBody (env : Env) (reading : Reading) (io : Bool) :
    Trace × Except Err Unit :=
  match fetchRules env reading.metric_id with
  | (tr1, .error e) => (tr1, .error e)
  | (tr1, .ok rs) =>
    match evalReading env reading io rs with
    | (tr2, r2) => (tr1.app tr2, r2)

/-- The function `checkRules(reading, io?)` from `alertsEngine.ts`: the whole body is
wrapped in a single try/catch whose handler logs the error with the
reading's id; the function itself always returns normally. -/
def checkRules (env : Env) (reading : Reading) (io : Bool) : Trace :=
  match checkRulesBody env reading io with
  | (tr, .ok _) => tr
  | (tr, .error e) => { tr with errorLog := tr.errorLog ++ [(reading.id, e)] }

/-- Fixture: the `'>' 30 critical` rule of the repository's unit tests. -/
def ruleGt30 : AlertRule :=
  ⟨"rule-1", "metric-123", ">", mkRat 30 1, "critical",
   "{metricName} is {value}, exceeding {threshold}"⟩

/-- Fixture: a second matching rule (`'>' 25 warning`) on the same metric. -/
def ruleGt25 : AlertRule :=
  ⟨"rule-2", "metric-123", ">", mkRat 25 1, "warning",
   "{metricName} is {value}, exceeding {threshold}"⟩

/-- Fixture: the `Temperature` metric whose device is owned by `user-123`. -/
def metricTemp : Metric := ⟨"metric-123", "Temperature", ⟨some "user-123"⟩⟩

/-- Fixture: the reading with value 35.5 on that metric. -/
def readingTemp : Reading := ⟨"reading-123", "metric-123", mkRat 71 2⟩

/-- Fixture: an environment where every collaborator call succeeds, the
rules cache holds `rules`, and the metric resolves to `metricTemp`. -/
def envOk (rules : List AlertRule) : Env :=
  ⟨.ok (some rules), .ok [], .ok (), .ok (some metricTemp),
   fun _ => .ok (), fun _ => .ok ()⟩

/-- The rules of a list whose condition holds on the reading's value. -/
def matchingRules (reading : Reading) : List AlertRule → List AlertRule :=
  List.filter (fun r => (evalCondition r.condition reading.value r.threshold).getD false)

/-- Fixture: a third matching rule (`'>' 20 info`) on the same metric. -/
def ruleGt20 : AlertRule :=
  ⟨"rule-3", "metric-123", ">", mkRat 20 1, "info",
   "{metricName} is {value}, exceeding {threshold}"⟩

/-- Fixture: a rule the reading 35.5 does not satisfy (`'>' 40`). -/
def ruleGt40 : AlertRule :=
  ⟨"rule-4", "metric-123", ">", mkRat 40 1, "critical",
   "{metricName} is {value}, exceeding {threshold}"⟩

/-- Fixture: a rule with an unknown condition operator. -/
def ruleBad : AlertRule :=
  ⟨"rule-bad", "metric-123", "???", mkRat 30 1, "info", "bad"⟩

/-- Fixture: the cache read throws (redis unreachable); everything else
would succeed and the store holds a matching rule. -/
def envCacheFail : Env :=
  ⟨.error "redis down", .ok [ruleGt30], .ok (), .ok (some metricTemp),
   fun _ => .ok (), fun _ => .ok ()⟩

/-- Fixture: a clean cache miss with a matching rule in the store. -/
def envCacheMiss : Env :=
  ⟨.ok none, .ok [ruleGt30], .ok (), .ok (some metricTemp),
   fun _ => .ok (), fun _ => .ok ()⟩

/-- Fixture: cache miss, store query succeeds, but the cache write-back
throws. -/
def envSetFail : Env :=
  ⟨.ok none, .ok [ruleGt30], .error "redis down", .ok (some metricTemp),
   fun _ => .ok (), fun _ => .ok ()⟩

/-- Fixture: two matching cached rules; alert persistence succeeds but
every socket emit throws. -/
def envEmitFail : Env :=
  ⟨.ok (some [ruleGt30, ruleGt25]), .ok [], .ok (), .ok (some metricTemp),
   fun _ => .ok (), fun _ => .error "socket down"⟩

/-- Fixture: three matching cached rules; the second `alert.create` call
rejects with a transient store error, the others succeed. -/
def envCreate2Fail : Env :=
  ⟨.ok (some [ruleGt30, ruleGt25, ruleGt20]), .ok [], .ok (),
   .ok (some metricTemp),
   fun k => if k == 1 then .error "store down" else .ok (), fun _ => .ok ()⟩

/-- A rule with an unknown operator is skipped (`default: continue`):
the loop on `rule :: rest` is the loop on `rest`. -/
theorem runRules_skip (env : Env) (reading : Reading) (io : Bool) (metric : Metric)
    (rule : AlertRule) (rest : List AlertRule) (tr : Trace) (ci ei : Nat)
    (h : evalCondition rule.condition reading.value rule.threshold = none) :
    runRules env reading io metric (rule :: rest) tr ci ei =
      runRules env reading io metric rest tr ci ei := by
  simp [runRules, h]

/-- The loop never touches the cache, the rule queries, or the error log. -/
theorem runRules_preserve (env : Env) (reading : Reading) (io : Bool) (metric : Metric) :
    ∀ (rs : List AlertRule) (tr : Trace) (ci ei : Nat),
    (runRules env reading io metric rs tr ci ei).1.cacheReads = tr.cacheReads ∧
    (runRules env reading io metric rs tr ci ei).1.ruleQueries = tr.ruleQueries ∧
    (runRules env reading io metric rs tr ci ei).1.cacheWrites = tr.cacheWrites ∧
    (runRules env reading io metric rs tr ci ei).1.errorLog = tr.errorLog := by
  intro rs
  induction rs with
  | nil => intro tr ci ei; simp [runRules]
  | cons r rest ih =>
    intro tr ci ei
    cases h : evalCondition r.condition reading.value r.threshold with
    | none => simpa [runRules, h] using ih tr ci ei
    | some b =>
      cases b with
      | false => simpa [runRules, h] using ih tr ci ei
      | true =>
        cases hc : env.createAlert ci with
        | error e => simp [runRules, h, hc]
        | ok u =>
          cases hio : io && ownerTruthy metric.device.owner_id with
          | false => simpa [runRules, h, hc, hio] using ih _ _ _
          | true =>
            cases hem : env.emit ei with
            | error e => simp [runRules, h, hc, hio, hem]
            | ok v => simpa [runRules, h, hc, hio, hem] using ih _ _ _

/-- Without a notifier the loop never emits. -/
theorem runRules_no_notifier (env : Env) (reading : Reading) (metric : Metric) :
    ∀ (rs : List AlertRule) (tr : Trace) (ci ei : Nat),
    (runRules env reading false metric rs tr ci ei).1.emits = tr.emits := by
  intro rs
  induction rs with
  | nil => intro tr ci ei; simp [runRules]
  | cons r rest ih =>
    intro tr ci ei
    cases h : evalCondition r.condition reading.value r.threshold with
    | none => simpa [runRules, h] using ih tr ci ei
    | some b =>
      cases b with
      | false => simpa [runRules, h] using ih tr ci ei
      | true =>
        cases hc : env.createAlert ci with
        | error e => simp [runRules, h, hc]
        | ok u => simpa [runRules, h, hc] using ih _ _ _

/-- When every `alert.create` and every `emit` succeeds, the loop returns
normally, persists one alert per matching rule (in order), and emits each
persisted alert to the owner's room exactly when a notifier is present
and the owner id is truthy. -/
theorem runRules_ok_spec (env : Env) (reading : Reading) (io : Bool) (metric : Metric)
    (hc : ∀ k, env.createAlert k = .ok ()) (he : ∀ k, env.emit k = .ok ()) :
    ∀ (rs : List AlertRule) (tr : Trace) (ci ei : Nat),
    runRules env reading io metric rs tr ci ei =
      ({ tr with
          alerts := tr.alerts ++ (matchingRules reading rs).map (mkAlertData reading metric)
          emits := tr.emits ++
            (if io && ownerTruthy metric.device.owner_id then
              (matchingRules reading rs).map (fun r =>
                ("user:" ++ ownerStr metric.device.owner_id, "new_alert",
                 mkAlertData reading metric r))
            else []) }, .ok ()) := by
  intro rs
  induction rs with
  | nil => intro tr ci ei; simp [runRules, matchingRules]
  | cons r rest ih =>
    intro tr ci ei
    cases h : evalCondition r.condition reading.value r.threshold with
    | none =>
      simp only [runRules, h]
      rw [ih tr ci ei]
      simp [matchingRules, h]
    | some b =>
      cases b with
      | false =>
        simp only [runRules, h]
        rw [ih tr ci ei]
        simp [matchingRules, h]
      | true =>
        simp only [runRules, h, hc ci]
        cases hio : io && ownerTruthy metric.device.owner_id with
        | false =>
          simp only [Bool.false_eq_true, if_neg, reduceIte]
          rw [ih _ _ _]
          simp [matchingRules, h, hio]
        | true =>
          simp only [he ei, reduceIte]
          rw [ih _ _ _]
          simp [matchingRules, h, hio]

/-- C2: the claim says `generateMessage` replaces EVERY occurrence of each
placeholder, and the repository's own unit test expects
`'Temp: 25, Temp: 25'` for a template repeating `{metricName}` and
`{value}`.  The source uses `String.prototype.replace` with a string
pattern, which replaces only the FIRST occurrence: the second occurrence
of each placeholder survives verbatim, so the code contradicts both the
claim and its own test. -/
theorem C2_replace_first_occurrence_only :
    generateMessage "{metricName}: {value}, {metricName}: {value}" "Temp"
        (mkRat 25 1) (mkRat 20 1) = "Temp: 25, {metricName}: {value}" ∧
    generateMessage "{metricName}: {value}, {metricName}: {value}" "Temp"
        (mkRat 25 1) (mkRat 20 1) ≠ "Temp: 25, Temp: 25" := by
  exact ⟨by decide, by decide⟩

/-- If `pat` is nonempty and no nonempty suffix of `s` starts with `pat`
(i.e. `pat` does not occur in `s`), replacement is the identity on `s`. -/
theorem replaceFirstList_no_occ (pat rep : List Char) (hp : pat ≠ []) :
    ∀ s : List Char, (∀ t ∈ s.tails, t ≠ [] → pat.isPrefixOf t = false) →
    replaceFirstList pat rep s = s := by
  intro s
  induction s with
  | nil =>
    intro _
    have h0 : pat.isPrefixOf ([] : List Char) = false := by
      cases pat with
      | nil => exact absurd rfl hp
      | cons p ps => rfl
    simp [replaceFirstList, h0]
  | cons c rest ih =>
    intro h
    have h1 : pat.isPrefixOf (c :: rest) = false :=
      h (c :: rest) (by simp [List.mem_tails]) (by simp)
    rw [replaceFirstList, h1]
    simp only [Bool.false_eq_true, if_false]
    have : replaceFirstList pat rep rest = rest := by
      refine ih (fun t ht hne => h t ?_ hne)
      rw [List.mem_tails] at ht ⊢
      exact ht.trans (List.suffix_cons c rest)
    rw [this]

/-- If no nonempty suffix of `a` starts a match of `pat` (even extending
into `s`), replacement on `a ++ s` leaves `a` intact and continues in `s`. -/
theorem replaceFirstList_append (pat rep : List Char) :
    ∀ a s : List Char, (∀ t ∈ a.tails, t ≠ [] → pat.isPrefixOf (t ++ s) = false) →
    replaceFirstList pat rep (a ++ s) = a ++ replaceFirstList pat rep s := by
  intro a
  induction a with
  | nil => intro s _; simp
  | cons c a1 ih =>
    intro s h
    have h1 : pat.isPrefixOf (c :: (a1 ++ s)) = false :=
      h (c :: a1) (by simp [List.mem_tails]) (by simp)
    have step : replaceFirstList pat rep ((c :: a1) ++ s) =
        c :: replaceFirstList pat rep (a1 ++ s) := by
      rw [List.cons_append, replaceFirstList, h1]
      simp
    rw [step]
    have : replaceFirstList pat rep (a1 ++ s) = a1 ++ replaceFirstList pat rep s := by
      refine ih s (fun t ht hne => h t ?_ hne)
      rw [List.mem_tails] at ht ⊢
      exact ht.trans (List.suffix_cons c a1)
    rw [this, List.cons_append]

/-- Replacement at an exact occurrence at the head: the occurrence is
replaced and the remainder kept. -/
theorem replaceFirstList_exact (pat rep : List Char) :
    ∀ b : List Char, replaceFirstList pat rep (pat ++ b) = rep ++ b := by
  intro b
  cases hp : pat with
  | nil =>
    cases b with
    | nil => simp [replaceFirstList, List.isPrefixOf]
    | cons c bs => simp [replaceFirstList, List.isPrefixOf]
  | cons p ps =>
    have hpre : (p :: ps).isPrefixOf ((p :: ps) ++ b) = true :=
      List.isPrefixOf_iff_prefix.mpr (List.prefix_append _ _)
    rw [List.cons_append, replaceFirstList]
    rw [List.cons_append] at hpre
    rw [hpre]
    simp only [if_true]
    have : List.drop (p :: ps).length ((p :: ps) ++ b) = b := List.drop_left _ _
    rw [List.cons_append] at this
    rw [this]

/-- C10: `generateMessage` substitutes sequentially (`{metricName}` first,
then `{value}`, then `{threshold}`), so when the template is exactly
`{metricName}` and the metric name contains the literal text `{value}`,
the name is substituted first and the `{value}` it contains is then itself
replaced by the reading's value: the rendered message is the name with the
value spliced in at that position, not the name verbatim. -/
theorem C10_sequential_substitution (a b : String) (v t : Rat)
    (h1 : ∀ s ∈ a.data.tails, s ≠ [] →
      "{value}".data.isPrefixOf (s ++ ("{value}".data ++ b.data)) = false)
    (h2 : ∀ s ∈ (a.data ++ ((numToString v).data ++ b.data)).tails, s ≠ [] →
      "{threshold}".data.isPrefixOf s = false) :
    generateMessage "{metricName}" (a ++ "{value}" ++ b) v t =
      a ++ numToString v ++ b := by
  have e1 : replaceFirstList "{metricName}".data (a ++ "{value}" ++ b).data
      "{metricName}".data = (a ++ "{value}" ++ b).data := by
    have h := replaceFirstList_exact "{metricName}".data (a ++ "{value}" ++ b).data []
    simpa using h
  have e2 : replaceFirstList "{value}".data (numToString v).data
      (a.data ++ ("{value}".data ++ b.data)) =
      a.data ++ ((numToString v).data ++ b.data) := by
    rw [replaceFirstList_append "{value}".data (numToString v).data a.data
      ("{value}".data ++ b.data) h1]
    rw [replaceFirstList_exact]
  have e3 : replaceFirstList "{threshold}".data (numToString t).data
      (a.data ++ ((numToString v).data ++ b.data)) =
      a.data ++ ((numToString v).data ++ b.data) :=
    replaceFirstList_no_occ _ _ (by decide) _ h2
  apply String.ext
  show replaceFirstList "{threshold}".data (numToString t).data
      (replaceFirstList "{value}".data (numToString v).data
        (replaceFirstList "{metricName}".data (a ++ "{value}" ++ b).data
          "{metricName}".data)) = (a ++ numToString v ++ b).data
  rw [e1]
  have hd : (a ++ "{value}" ++ b).data = a.data ++ ("{value}".data ++ b.data) := by
    simp [String.data_append, List.append_assoc]
  rw [hd, e2, e3]
  simp [String.data_append, List.append_assoc]

/-- Witness for C10 at the claim's concrete input:
`generateMessage('{metricName}', 'A{value}B', 5, 7) = 'A5B'`. -/
theorem C10_witness :
    generateMessage "{metricName}" "A{value}B" (mkRat 5 1) (mkRat 7 1) = "A5B" := by
  have h := C10_sequential_substitution "A" "B" (mkRat 5 1) (mkRat 7 1)
    (by decide) (by decide)
  have ha : ("A" ++ "{value}" ++ "B" : String) = "A{value}B" := by decide
  rw [ha] at h
  rw [h]
  decide

/-- The cache phase reads exactly the namespaced key and never touches
alerts, emits or the error log. -/
theorem fetchRules_fields (env : Env) (m : String) :
    (fetchRules env m).1.cacheReads = ["alert_rules:" ++ m] ∧
    (fetchRules env m).1.alerts = [] ∧
    (fetchRules env m).1.emits = [] ∧
    (fetchRules env m).1.errorLog = [] := by
  unfold fetchRules
  cases env.cacheGet with
  | error e => simp [Trace.nil]
  | ok o =>
    cases o with
    | some rs => simp [Trace.nil]
    | none =>
      cases env.findRules with
      | error e => simp [Trace.nil]
      | ok rs =>
        cases env.cacheSet with
        | error e => simp [Trace.nil]
        | ok u => simp [Trace.nil]

/-- The evaluation phase never touches the cache, the rule queries or the
error log. -/
theorem evalReading_fields (env : Env) (reading : Reading) (io : Bool)
    (rs : List AlertRule) :
    (evalReading env reading io rs).1.cacheReads = [] ∧
    (evalReading env reading io rs).1.ruleQueries = [] ∧
    (evalReading env reading io rs).1.cacheWrites = [] ∧
    (evalReading env reading io rs).1.errorLog = [] := by
  unfold evalReading
  cases env.findMetric with
  | error e => simp [Trace.nil]
  | ok o =>
    cases o with
    | none => simp [Trace.nil]
    | some metric =>
      have h := runRules_preserve env reading io metric rs Trace.nil 0 0
      simpa [Trace.nil] using h

/-- Equation: when the cache phase returns rules, the body is the cache
trace followed by the evaluation phase. -/
theorem checkRulesBody_ok_fetch (env : Env) (reading : Reading) (io : Bool)
    (rs : List AlertRule) (tr1 : Trace)
    (hf : fetchRules env reading.metric_id = (tr1, .ok rs)) :
    checkRulesBody env reading io =
      (tr1.app (evalReading env reading io rs).1, (evalReading env reading io rs).2) := by
  unfold checkRulesBody
  rw [hf]

/-- Equation: when the cache phase throws, the body is that failure. -/
theorem checkRulesBody_err_fetch (env : Env) (reading : Reading) (io : Bool)
    (e : Err) (tr1 : Trace)
    (hf : fetchRules env reading.metric_id = (tr1, .error e)) :
    checkRulesBody env reading io = (tr1, .error e) := by
  unfold checkRulesBody
  rw [hf]

/-- Equation: a normally returning body is the whole trace. -/
theorem checkRules_ok_body (env : Env) (reading : Reading) (io : Bool) (tr : Trace)
    (hb : checkRulesBody env reading io = (tr, .ok ())) :
    checkRules env reading io = tr := by
  unfold checkRules
  rw [hb]

/-- Equation: a throwing body is caught and logged with the reading id. -/
theorem checkRules_err_body (env : Env) (reading : Reading) (io : Bool)
    (tr : Trace) (e : Err)
    (hb : checkRulesBody env reading io = (tr, .error e)) :
    checkRules env reading io = { tr with errorLog := tr.errorLog ++ [(reading.id, e)] } := by
  unfold checkRules
  rw [hb]

/-- Decomposition of a `checkRules` run whose cache phase returned rules
`rs` with trace `tr1`: the cache-phase fields come from `tr1` alone and
the alerts/emits come from `tr1` followed by the evaluation phase on
`rs`, whether or not the evaluation phase throws. -/
theorem checkRules_of_fetch (env : Env) (reading : Reading) (io : Bool)
    (rs : List AlertRule) (tr1 : Trace)
    (hf : fetchRules env reading.metric_id = (tr1, .ok rs)) :
    (checkRules env reading io).cacheReads = tr1.cacheReads ∧
    (checkRules env reading io).ruleQueries = tr1.ruleQueries ∧
    (checkRules env reading io).cacheWrites = tr1.cacheWrites ∧
    (checkRules env reading io).alerts =
      tr1.alerts ++ (evalReading env reading io rs).1.alerts ∧
    (checkRules env reading io).emits =
      tr1.emits ++ (evalReading env reading io rs).1.emits := by
  have hbody := checkRulesBody_ok_fetch env reading io rs tr1 hf
  have hev := evalReading_fields env reading io rs
  unfold checkRules
  rw [hbody]
  cases h2 : evalReading env reading io rs with
  | mk tr2 r2 =>
    rw [h2] at hev
    simp only at hev
    cases r2 with
    | ok u => simp [Trace.app, hev.1, hev.2.1, hev.2.2.1]
    | error e => simp [Trace.app, hev.1, hev.2.1, hev.2.2.1]

/-- The try-block body itself never writes to the error log (only the
catch handler does). -/
theorem checkRulesBody_errorLog (env : Env) (reading : Reading) (io : Bool) :
    (checkRulesBody env reading io).1.errorLog = [] := by
  have hf := fetchRules_fields env reading.metric_id
  cases h1 : fetchRules env reading.metric_id with
  | mk tr1 r1 =>
    rw [h1] at hf
    simp only at hf
    cases r1 with
    | error e =>
      rw [checkRulesBody_err_fetch env reading io e tr1 h1]
      exact hf.2.2.2
    | ok rs =>
      rw [checkRulesBody_ok_fetch env reading io rs tr1 h1]
      have hev := evalReading_fields env reading io rs
      simp [Trace.app, hf.2.2.2, hev.2.2.2]

/-- C5: `checkRules` never raises to its caller — it always returns a
trace (it is a total function into `Trace`), and for every environment
(any combination of cache, store, alert-creation and publish failures)
either the body succeeded and nothing is logged, or the single thrown
error is caught and logged together with the reading's id. -/
theorem C5_all_failures_caught_and_logged :
    ∀ (env : Env) (reading : Reading) (io : Bool),
    ((checkRulesBody env reading io).2 = .ok () ∧
      (checkRules env reading io).errorLog = []) ∨
    (∃ e : Err, (checkRulesBody env reading io).2 = .error e ∧
      (checkRules env reading io).errorLog = [(reading.id, e)]) := by
  intro env reading io
  have hlog := checkRulesBody_errorLog env reading io
  cases hb : checkRulesBody env reading io with
  | mk tr r =>
    rw [hb] at hlog
    simp only at hlog
    cases r with
    | ok u =>
      left
      cases u
      rw [checkRules_ok_body env reading io tr hb]
      exact ⟨rfl, hlog⟩
    | error e =>
      right
      refine ⟨e, rfl, ?_⟩
      rw [checkRules_err_body env reading io tr e hb]
      simp [hlog]

/-- Without a notifier (`io` absent) no emit ever happens, in any
environment, including all failure paths. -/
theorem checkRules_no_notifier_emits (env : Env) (reading : Reading) :
    (checkRules env reading false).emits = [] := by
  have hf := fetchRules_fields env reading.metric_id
  cases h1 : fetchRules env reading.metric_id with
  | mk tr1 r1 =>
    rw [h1] at hf
    simp only at hf
    cases r1 with
    | error e =>
      rw [checkRules_err_body env reading false tr1 e
        (checkRulesBody_err_fetch env reading false e tr1 h1)]
      exact hf.2.2.1
    | ok rs =>
      have hev : (evalReading env reading false rs).1.emits = [] := by
        unfold evalReading
        cases env.findMetric with
        | error e => simp [Trace.nil]
        | ok o =>
          cases o with
          | none => simp [Trace.nil]
          | some metric =>
            simpa [Trace.nil] using
              runRules_no_notifier env reading metric rs Trace.nil 0 0
      have h := checkRules_of_fetch env reading false rs tr1 h1
      rw [h.2.2.2.2, hev, hf.2.2.1]
      rfl

/-- C7: the rule lookup is a read-through cache.  On a cache hit for the
key `alert_rules:<metricId>` no store rule query and no cache write
happen and the reading is evaluated with the cached rules; on a miss,
exactly one store rule query for that metric id happens, the result is
written back under the same key with TTL 300 seconds, and the reading is
evaluated with the queried rules. -/
theorem C7_rule_cache_read_through :
    ∀ (env : Env) (reading : Reading) (io : Bool) (rs : List AlertRule),
    (env.cacheGet = .ok (some rs) →
      (checkRules env reading io).cacheReads = ["alert_rules:" ++ reading.metric_id] ∧
      (checkRules env reading io).ruleQueries = [] ∧
      (checkRules env reading io).cacheWrites = [] ∧
      (checkRules env reading io).alerts = (evalReading env reading io rs).1.alerts) ∧
    (env.cacheGet = .ok none → env.findRules = .ok rs → env.cacheSet = .ok () →
      (checkRules env reading io).cacheReads = ["alert_rules:" ++ reading.metric_id] ∧
      (checkRules env reading io).ruleQueries = [reading.metric_id] ∧
      (checkRules env reading io).cacheWrites =
        [("alert_rules:" ++ reading.metric_id, rs, 300)] ∧
      (checkRules env reading io).alerts = (evalReading env reading io rs).1.alerts) := by
  intro env reading io rs
  constructor
  · intro hget
    have hf : fetchRules env reading.metric_id =
        ({ Trace.nil with cacheReads := ["alert_rules:" ++ reading.metric_id] }, .ok rs) := by
      unfold fetchRules
      rw [hget]
    have h := checkRules_of_fetch env reading io rs _ hf
    exact ⟨h.1, h.2.1, h.2.2.1, by rw [h.2.2.2.1]; rfl⟩
  · intro hget hfind hset
    have hf : fetchRules env reading.metric_id =
        ({ Trace.nil with
            cacheReads := ["alert_rules:" ++ reading.metric_id]
            ruleQueries := [reading.metric_id]
            cacheWrites := [("alert_rules:" ++ reading.metric_id, rs, 300)] },
          .ok rs) := by
      unfold fetchRules
      rw [hget, hfind, hset]
      rfl
    have h := checkRules_of_fetch env reading io rs _ hf
    exact ⟨h.1, h.2.1, h.2.2.1, by rw [h.2.2.2.1]; rfl⟩

/-- Witness for C7: with the test fixtures, a cache hit queries the store
zero times and writes nothing, a cache miss queries it once for the
metric id and writes the rules back with TTL 300. -/
theorem C7_witness :
    (checkRules (envOk [ruleGt30]) readingTemp false).ruleQueries = [] ∧
    (checkRules (envOk [ruleGt30]) readingTemp false).cacheWrites = [] ∧
    (checkRules envCacheMiss readingTemp false).ruleQueries = ["metric-123"] ∧
    (checkRules envCacheMiss readingTemp false).cacheWrites =
      [("alert_rules:metric-123", [ruleGt30], 300)] := by
  have h1 := (C7_rule_cache_read_through (envOk [ruleGt30]) readingTemp false [ruleGt30]).1 rfl
  have h2 := (C7_rule_cache_read_through envCacheMiss readingTemp false [ruleGt30]).2 rfl rfl rfl
  exact ⟨h1.2.1, h1.2.2.1, h2.2.1, by rw [h2.2.2.1]; decide⟩

/-- C8: for a reading whose metric resolves and whose collaborators
succeed, exactly the rules whose condition holds produce one persisted
alert each — in rule order, with status `new`, the rule's level and
threshold, references to the metric (via `metric_id`) and reading, and
the message rendered from the rule's template — and a reading satisfying
no rule creates zero alerts. -/
theorem C8_alert_creation_postcondition :
    ∀ (env : Env) (reading : Reading) (rs : List AlertRule) (metric : Metric) (io : Bool),
    env.cacheGet = .ok (some rs) →
    env.findMetric = .ok (some metric) →
    (∀ k, env.createAlert k = .ok ()) →
    (∀ k, env.emit k = .ok ()) →
    (checkRules env reading io).alerts =
      (matchingRules reading rs).map (mkAlertData reading metric) ∧
    (∀ a ∈ (checkRules env reading io).alerts, a.status = "new" ∧
      ∃ r ∈ matchingRules reading rs, a = mkAlertData reading metric r) ∧
    (matchingRules reading rs = [] → (checkRules env reading io).alerts = []) := by
  intro env reading rs metric io hget hmet hc he
  have hf : fetchRules env reading.metric_id =
      ({ Trace.nil with cacheReads := ["alert_rules:" ++ reading.metric_id] }, .ok rs) := by
    unfold fetchRules
    rw [hget]
  have h := checkRules_of_fetch env reading io rs _ hf
  have hev : (evalReading env reading io rs).1.alerts =
      (matchingRules reading rs).map (mkAlertData reading metric) := by
    unfold evalReading
    rw [hmet]
    show (runRules env reading io metric rs Trace.nil 0 0).1.alerts = _
    rw [runRules_ok_spec env reading io metric hc he rs Trace.nil 0 0]
    simp [Trace.nil]
  have halerts : (checkRules env reading io).alerts =
      (matchingRules reading rs).map (mkAlertData reading metric) := by
    rw [h.2.2.2.1, hev]
    rfl
  refine ⟨halerts, ?_, ?_⟩
  · intro a ha
    rw [halerts] at ha
    obtain ⟨r, hr, rfl⟩ := List.mem_map.mp ha
    exact ⟨rfl, r, hr, rfl⟩
  · intro hnone
    rw [halerts, hnone]
    rfl

/-- Witness for C8 at the claim's concrete input: value 35.5 against the
single rule `'>' 30 critical` on metric `Temperature` creates exactly the
one alert with level `critical`, status `new`, threshold 30 and message
`Temperature is 35.5, exceeding 30`; against the non-matching rule
`'>' 40` it creates zero alerts. -/
theorem C8_witness :
    (checkRules (envOk [ruleGt30]) readingTemp false).alerts =
      [⟨"metric-123", "reading-123", "critical", "new", mkRat 30 1,
        "Temperature is 35.5, exceeding 30"⟩] ∧
    (checkRules (envOk [ruleGt40]) readingTemp false).alerts = [] := by
  have h1 := C8_alert_creation_postcondition (envOk [ruleGt30]) readingTemp [ruleGt30]
    metricTemp false rfl rfl (fun _ => rfl) (fun _ => rfl)
  have h2 := C8_alert_creation_postcondition (envOk [ruleGt40]) readingTemp [ruleGt40]
    metricTemp false rfl rfl (fun _ => rfl) (fun _ => rfl)
  refine ⟨?_, h2.2.2 (by decide)⟩
  rw [h1.1]
  decide

/-- C9: a live publish happens for a created alert exactly when a
notifier was supplied and the resolved owner id is truthy (present and
non-empty); each publish goes to room `user:<ownerId>` with event
`new_alert` carrying the persisted alert, one per persisted alert in
persistence order (so only after its alert was persisted); with an
absent/empty owner the alerts are still persisted but nothing is
published, and with no notifier no publish happens in any environment. -/
theorem C9_notification_gating :
    ∀ (env : Env) (reading : Reading) (rs : List AlertRule) (metric : Metric),
    env.cacheGet = .ok (some rs) →
    env.findMetric = .ok (some metric) →
    (∀ k, env.createAlert k = .ok ()) →
    (∀ k, env.emit k = .ok ()) →
    ((checkRules env reading true).emits =
      (if ownerTruthy metric.device.owner_id then
        (checkRules env reading true).alerts.map
          (fun a => ("user:" ++ ownerStr metric.device.owner_id, "new_alert", a))
      else [])) ∧
    (∀ env2 : Env, (checkRules env2 reading false).emits = []) := by
  intro env reading rs metric hget hmet hc he
  refine ⟨?_, fun env2 => checkRules_no_notifier_emits env2 reading⟩
  have hf : fetchRules env reading.metric_id =
      ({ Trace.nil with cacheReads := ["alert_rules:" ++ reading.metric_id] }, .ok rs) := by
    unfold fetchRules
    rw [hget]
  have h := checkRules_of_fetch env reading true rs _ hf
  have hrun := runRules_ok_spec env reading true metric hc he rs Trace.nil 0 0
  have hev1 : (evalReading env reading true rs).1.alerts =
      (matchingRules reading rs).map (mkAlertData reading metric) := by
    unfold evalReading
    rw [hmet]
    show (runRules env reading true metric rs Trace.nil 0 0).1.alerts = _
    rw [hrun]
    simp [Trace.nil]
  have hev2 : (evalReading env reading true rs).1.emits =
      (if ownerTruthy metric.device.owner_id then
        (matchingRules reading rs).map (fun r =>
          ("user:" ++ ownerStr metric.device.owner_id, "new_alert",
           mkAlertData reading metric r))
      else []) := by
    unfold evalReading
    rw [hmet]
    show (runRules env reading true metric rs Trace.nil 0 0).1.emits = _
    rw [hrun]
    simp [Trace.nil]
  have halerts : (checkRules env reading true).alerts =
      (matchingRules reading rs).map (mkAlertData reading metric) := by
    rw [h.2.2.2.1, hev1]
    rfl
  rw [h.2.2.2.2, hev2, halerts]
  cases howner : ownerTruthy metric.device.owner_id with
  | false => simp [Trace.nil]
  | true => simp [Trace.nil, List.map_map, Function.comp]

/-- Witness for C9: with the owner `user-123` present, the one created
alert is published to room `user:user-123` with event `new_alert`; with
no notifier supplied, nothing is published while the alert would still be
persisted. -/
theorem C9_witness :
    (checkRules (envOk [ruleGt30]) readingTemp true).emits =
      [("user:user-123", "new_alert",
        ⟨"metric-123", "reading-123", "critical", "new", mkRat 30 1,
         "Temperature is 35.5, exceeding 30"⟩)] ∧
    (checkRules (envOk [ruleGt30]) readingTemp false).emits = [] := by
  have h := C9_notification_gating (envOk [ruleGt30]) readingTemp [ruleGt30]
    metricTemp rfl rfl (fun _ => rfl) (fun _ => rfl)
  refine ⟨?_, h.2 (envOk [ruleGt30])⟩
  rw [h.1]
  decide

/-- C6: the six supported operators have standard numeric comparison
semantics (the condition holds exactly when the comparison does); any
other operator string yields no condition (`default: continue`), raising
nothing, and the skipped rule leaves the evaluation of its sibling rules
unchanged. -/
theorem C6_condition_semantics :
    ∀ (v t : Rat),
    ((evalCondition ">" v t = some true) ↔ v > t) ∧
    ((evalCondition "<" v t = some true) ↔ v < t) ∧
    ((evalCondition ">=" v t = some true) ↔ v ≥ t) ∧
    ((evalCondition "<=" v t = some true) ↔ v ≤ t) ∧
    ((evalCondition "==" v t = some true) ↔ v = t) ∧
    ((evalCondition "!=" v t = some true) ↔ v ≠ t) ∧
    (∀ c : String,
      ¬(c = ">" ∨ c = "<" ∨ c = ">=" ∨ c = "<=" ∨ c = "==" ∨ c = "!=") →
      evalCondition c v t = none) ∧
    (∀ (env : Env) (reading : Reading) (io : Bool) (metric : Metric)
       (rule : AlertRule) (rest : List AlertRule) (tr : Trace) (ci ei : Nat),
      evalCondition rule.condition reading.value rule.threshold = none →
      runRules env reading io metric (rule :: rest) tr ci ei =
        runRules env reading io metric rest tr ci ei) := by
  intro v t
  refine ⟨?_, ?_, ?_, ?_, ?_, ?_, ?_, ?_⟩
  · simp [evalCondition]
  · simp [evalCondition]
  · simp [evalCondition]
  · simp [evalCondition]
  · simp [evalCondition]
  · simp [evalCondition]
  · intro c hc
    have h1 : ¬c = ">" := fun h => hc (Or.inl h)
    have h2 : ¬c = "<" := fun h => hc (Or.inr (Or.inl h))
    have h3 : ¬c = ">=" := fun h => hc (Or.inr (Or.inr (Or.inl h)))
    have h4 : ¬c = "<=" := fun h => hc (Or.inr (Or.inr (Or.inr (Or.inl h))))
    have h5 : ¬c = "==" := fun h => hc (Or.inr (Or.inr (Or.inr (Or.inr (Or.inl h)))))
    have h6 : ¬c = "!=" := fun h => hc (Or.inr (Or.inr (Or.inr (Or.inr (Or.inr h)))))
    simp [evalCondition, h1, h2, h3, h4, h5, h6]
  · intro env reading io metric rule rest tr ci ei h
    exact runRules_skip env reading io metric rule rest tr ci ei h

/-- Witness for C6: `>` holds on (3, 2), the unknown operator `???`
yields no condition, and a rule carrying `???` is skipped while its
sibling rules are still evaluated. -/
theorem C6_witness :
    evalCondition ">" (mkRat 3 1) (mkRat 2 1) = some true ∧
    evalCondition "???" (mkRat 3 1) (mkRat 2 1) = none ∧
    runRules (envOk []) readingTemp true metricTemp [ruleBad, ruleGt30] Trace.nil 0 0 =
      runRules (envOk []) readingTemp true metricTemp [ruleGt30] Trace.nil 0 0 := by
  have h := C6_condition_semantics (mkRat 3 1) (mkRat 2 1)
  refine ⟨h.1.mpr (by decide), ?_, ?_⟩
  · exact h.2.2.2.2.2.2.1 "???" (by decide)
  · exact h.2.2.2.2.2.2.2 (envOk []) readingTemp true metricTemp ruleBad [ruleGt30]
      Trace.nil 0 0 (by decide)

/-- C3 counterexample: the claim says a cache-read failure is treated
like a cache miss (fall through to the store and evaluate) and a
cache-write failure must not fail the lookup.  On a genuine miss the
engine does query the store and persist an alert, but when the cache
read throws it queries nothing, evaluates nothing and only logs; and
when the write-back throws, the freshly queried rules are discarded
(no alert) and the error is logged. -/
theorem C3_counterexample :
    (checkRules envCacheMiss readingTemp false).ruleQueries = ["metric-123"] ∧
    (checkRules envCacheMiss readingTemp false).alerts ≠ [] ∧
    (checkRules envCacheFail readingTemp false).ruleQueries = [] ∧
    (checkRules envCacheFail readingTemp false).alerts = [] ∧
    (checkRules envCacheFail readingTemp false).errorLog =
      [("reading-123", "redis down")] ∧
    (checkRules envSetFail readingTemp false).alerts = [] ∧
    (checkRules envSetFail readingTemp false).errorLog =
      [("reading-123", "redis down")] := by
  decide

/-- C3 amended: any cache failure aborts evaluation of the reading.
When the cache read throws, the error is caught by the per-reading
handler and logged, no store rule query is issued and nothing else
happens; when the write-back after a successful store query throws, the
query has happened but the rules are not used — the error is logged and
no alert is created. -/
theorem C3_cache_failure_aborts_reading :
    ∀ (env env2 : Env) (reading : Reading) (io : Bool) (e e2 : Err)
      (rs : List AlertRule),
    (env.cacheGet = .error e →
      checkRules env reading io =
        { Trace.nil with
            cacheReads := ["alert_rules:" ++ reading.metric_id]
            errorLog := [(reading.id, e)] }) ∧
    (env2.cacheGet = .ok none → env2.findRules = .ok rs →
      env2.cacheSet = .error e2 →
      checkRules env2 reading io =
        { Trace.nil with
            cacheReads := ["alert_rules:" ++ reading.metric_id]
            ruleQueries := [reading.metric_id]
            errorLog := [(reading.id, e2)] }) := by
  intro env env2 reading io e e2 rs
  constructor
  · intro hget
    have hf : fetchRules env reading.metric_id =
        ({ Trace.nil with cacheReads := ["alert_rules:" ++ reading.metric_id] },
          .error e) := by
      unfold fetchRules
      rw [hget]
    rw [checkRules_err_body env reading io _ e
      (checkRulesBody_err_fetch env reading io e _ hf)]
    rfl
  · intro hget hfind hset
    have hf : fetchRules env2 reading.metric_id =
        ({ Trace.nil with
            cacheReads := ["alert_rules:" ++ reading.metric_id]
            ruleQueries := [reading.metric_id] },
          .error e2) := by
      unfold fetchRules
      rw [hget, hfind, hset]
    rw [checkRules_err_body env2 reading io _ e2
      (checkRulesBody_err_fetch env2 reading io e2 _ hf)]
    rfl

/-- Witness for C3 (amended): concrete traces for a thrown cache read and
a thrown cache write-back. -/
theorem C3_witness :
    checkRules envCacheFail readingTemp false =
      ⟨["alert_rules:metric-123"], [], [], [], [],
        [("reading-123", "redis down")]⟩ ∧
    checkRules envSetFail readingTemp false =
      ⟨["alert_rules:metric-123"], ["metric-123"], [], [], [],
        [("reading-123", "redis down")]⟩ := by
  have h := C3_cache_failure_aborts_reading envCacheFail envSetFail readingTemp false
    "redis down" "redis down" [ruleGt30]
  constructor
  · rw [h.1 rfl]
    decide
  · rw [h.2 rfl rfl rfl]
    decide

/-- C4 counterexample: the claim says a publish failure does not unwind
into the pipeline and subsequent rules still proceed.  With two matching
rules and a throwing emit, the same reading that persists two alerts
under a healthy notifier persists only the first alert — the second rule
is never evaluated — and the publish error lands in the per-reading log. -/
theorem C4_counterexample :
    (checkRules (envOk [ruleGt30, ruleGt25]) readingTemp true).alerts.length = 2 ∧
    (checkRules envEmitFail readingTemp true).alerts.length = 1 ∧
    (checkRules envEmitFail readingTemp true).emits = [] ∧
    (checkRules envEmitFail readingTemp true).errorLog =
      [("reading-123", "socket down")] := by
  decide

/-- C4 amended: when publishing the first created alert throws, the error
is caught by the per-reading try/catch and logged with the reading's id,
and the alert whose publish failed remains persisted — but evaluation of
the reading stops: the remaining rules are not evaluated and no further
alert is persisted or published. -/
theorem C4_publish_failure_stops_reading :
    ∀ (env : Env) (reading : Reading) (metric : Metric) (rule : AlertRule)
      (rest : List AlertRule) (e : Err),
    env.cacheGet = .ok (some (rule :: rest)) →
    env.findMetric = .ok (some metric) →
    evalCondition rule.condition reading.value rule.threshold = some true →
    env.createAlert 0 = .ok () →
    ownerTruthy metric.device.owner_id = true →
    env.emit 0 = .error e →
    (checkRules env reading true).alerts = [mkAlertData reading metric rule] ∧
    (checkRules env reading true).emits = [] ∧
    (checkRules env reading true).errorLog = [(reading.id, e)] := by
  intro env reading metric rule rest e hget hmet hcond hcreate howner hemit
  have hf : fetchRules env reading.metric_id =
      ({ Trace.nil with cacheReads := ["alert_rules:" ++ reading.metric_id] },
        .ok (rule :: rest)) := by
    unfold fetchRules
    rw [hget]
  have hev : evalReading env reading true (rule :: rest) =
      ({ Trace.nil with alerts := [mkAlertData reading metric rule] }, .error e) := by
    unfold evalReading
    rw [hmet]
    show runRules env reading true metric (rule :: rest) Trace.nil 0 0 = _
    rw [runRules]
    rw [hcond]
    simp only [hcreate, howner, Bool.true_and, reduceIte, hemit]
    rfl
  have hbody := checkRulesBody_ok_fetch env reading true (rule :: rest) _ hf
  rw [hev] at hbody
  simp only at hbody
  rw [checkRules_err_body env reading true _ e hbody]
  refine ⟨?_, ?_, ?_⟩ <;> simp [Trace.app, Trace.nil]

/-- Witness for C4 (amended): with two matching rules and a throwing
socket, exactly the first rule's alert is persisted, nothing is emitted,
and the socket error is logged for the reading. -/
theorem C4_witness :
    (checkRules envEmitFail readingTemp true).alerts =
      [mkAlertData readingTemp metricTemp ruleGt30] ∧
    (checkRules envEmitFail readingTemp true).emits = [] ∧
    (checkRules envEmitFail readingTemp true).errorLog =
      [("reading-123", "socket down")] := by
  exact C4_publish_failure_stops_reading envEmitFail readingTemp metricTemp ruleGt30
    [ruleGt25] "socket down" rfl rfl (by decide) rfl (by decide) rfl

/-- C1: the claim (like the repository's own unit test `should continue
processing other rules when one fails`) says that when persisting the
alert of matching rule N throws, rules N+1..end are still attempted.
The single try/catch wrapping the whole loop makes the thrown store
error abort the loop instead: with three matching rules whose second
`alert.create` rejects, only the first rule's alert is persisted, the
third rule is never attempted, and the error is logged for the reading —
while the same rules with a healthy store persist all three alerts. -/
theorem C1_create_failure_aborts_loop :
    (checkRules envCreate2Fail readingTemp false).alerts =
      [mkAlertData readingTemp metricTemp ruleGt30] ∧
    (checkRules envCreate2Fail readingTemp false).errorLog =
      [("reading-123", "store down")] ∧
    (checkRules (envOk [ruleGt30, ruleGt25, ruleGt20]) readingTemp false).alerts =
      [mkAlertData readingTemp metricTemp ruleGt30,
       mkAlertData readingTemp metricTemp ruleGt25,
       mkAlertData readingTemp metricTemp ruleGt20] := by
  decide
